import Mathlib

/-!
Verification of the utility module of a Lipschitz-constrained network library
(`deel/lip/utils.py`).  The module has three concerns, each embedded below:

* a process-wide custom-object registry (`CUSTOM_OBJECTS`, `deel_export`) and
  three model-loading facades (`load_model`, `model_from_json`,
  `model_from_yaml`) that merge the registry with caller overrides and delegate
  to the framework deserializer;
* a fan-in/fan-out shape helper (`_compute_fans`);
* an empirical Lipschitz-constant estimator (`evaluate_lip_const`,
  `evaluate_lip_const_gen`).

Modelling conventions:

* A Python callable is a `PyFun`: its `__name__` attribute together with an
  identity tag distinguishing distinct functions.
* A Python `dict` from strings to callables is an ordered association list
  with unique keys; `dinsert` is `d[k] = v`, `dupdate` is `d.update(o)`,
  `dcopy` is `d.copy()` (a shallow copy, hence the identity on the value),
  `dlookup` is `d[k]` / `d.get(k)`.
* The framework deserializers (`keras_load_model`, `keras_model_from_json`,
  `keras_model_from_yaml`) are opaque parameters of the loader functions; the
  embedding returns both the framework result and the registry state after the
  call, since the registry is the only module-level mutable state.
* A tensor with a leading batch axis is a `List (List ℝ)`: a batch of
  flattened per-sample vectors.  Sums of squares over all non-batch axes of
  the original tensor are sums of squares over the flattened row, so this
  flattening is faithful for every quantity the estimator computes.  The
  "shape" handed to the random sampler is the list of row lengths.
* `K.random_uniform(shape, minval, maxval, seed)` is an oracle parameter
  `random_uniform`; theorems about the sampled offsets assume the sampler
  honours its documented range `[minval, maxval)`.
* Exceptions are `Except String`; floating-point arithmetic is idealized as
  exact real arithmetic.
-/

/-- A Python callable as stored in the registry: its `__name__` attribute plus
an identity tag distinguishing distinct function objects. -/
structure PyFun where
  name : String
  tag : ℕ
  deriving DecidableEq

/-- A Python `dict` mapping strings to callables, as an ordered association
list (unique keys are maintained by `dinsert`). -/
abbrev PyDict := List (String × PyFun)

/-- Python `d[k]`: the value stored under the first (only) occurrence of `k`. -/
def dlookup : PyDict → String → Option PyFun
  | [], _ => none
  | (k', v) :: t, k => if k' = k then some v else dlookup t k

/-- Python `d[k] = v`: replace the value under an existing key in place,
otherwise append the new binding. -/
def dinsert : PyDict → String → PyFun → PyDict
  | [], k, v => [(k, v)]
  | (k', v') :: t, k, v => if k' = k then (k, v) :: t else (k', v') :: dinsert t k v

/-- Python `d.copy()`: a shallow copy, observationally the same mapping. -/
def dcopy (d : PyDict) : PyDict := d

/-- Python `d.update(o)`: set `d[k] = v` for each binding of `o` in order. -/
def dupdate (d : PyDict) (o : PyDict) : PyDict :=
  o.foldl (fun acc kv => dinsert acc kv.1 kv.2) d

/-- `CUSTOM_OBJECTS = dict()`: the process-wide registry starts empty. -/
def CUSTOM_OBJECTS : PyDict := []

/-- `deel_export(f)`: store `f` in the registry under `f.__name__` and return
`f` unchanged.  The result pairs the returned callable with the registry state
after the call. -/
def deel_export (st : PyDict) (f : PyFun) : PyFun × PyDict :=
  (f, dinsert st f.name f)

/-- The `deel_custom_objects` local computed identically by all three loaders:
`CUSTOM_OBJECTS.copy()`, then `.update(custom_objects)` when the caller passed
a mapping. -/
def deel_custom_objects (st : PyDict) (custom_objects : Option PyDict) : PyDict :=
  match custom_objects with
  | none => dcopy st
  | some c => dupdate (dcopy st) c

/-- `load_model(filepath, custom_objects, compile)`: delegate to the framework
loader with the merged custom-object mapping.  Returns the framework result and
the registry state after the call. -/
def load_model {M : Type} (keras_load_model : String → PyDict → Bool → M)
    (st : PyDict) (filepath : String) (custom_objects : Option PyDict)
    (compile : Bool) : M × PyDict :=
  (keras_load_model filepath (deel_custom_objects st custom_objects) compile, st)

/-- `model_from_json(json_string, custom_objects)`: delegate to the framework
JSON deserializer with the merged custom-object mapping. -/
def model_from_json {M : Type} (keras_model_from_json : String → PyDict → M)
    (st : PyDict) (json_string : String) (custom_objects : Option PyDict) :
    M × PyDict :=
  (keras_model_from_json json_string (deel_custom_objects st custom_objects), st)

/-- `model_from_yaml(yaml_string, custom_objects)`: delegate to the framework
YAML deserializer with the merged custom-object mapping. -/
def model_from_yaml {M : Type} (keras_model_from_yaml : String → PyDict → M)
    (st : PyDict) (yaml_string : String) (custom_objects : Option PyDict) :
    M × PyDict :=
  (keras_model_from_yaml yaml_string (deel_custom_objects st custom_objects), st)

/-- The operations of the module that run against the process-wide registry. -/
inductive ModuleOp where
  | register (f : PyFun)
  | loadModel (filepath : String) (custom_objects : Option PyDict) (compile : Bool)
  | fromJson (json_string : String) (custom_objects : Option PyDict)
  | fromYaml (yaml_string : String) (custom_objects : Option PyDict)
  deriving DecidableEq

/-- The registry state after running one module operation, read off from the
registry component of each operation's embedding. -/
def registryStep (st : PyDict) : ModuleOp → PyDict
  | .register f => (deel_export st f).2
  | .loadModel fp c cp => (load_model (fun _ _ _ => ()) st fp c cp).2
  | .fromJson s c => (model_from_json (fun _ _ => ()) st s c).2
  | .fromYaml s c => (model_from_yaml (fun _ _ => ()) st s c).2

/-- `_compute_fans(shape, data_format)` from the source: fan-in/fan-out of a
weight-tensor shape.  Python slices `shape[2:]`, `shape[:-2]` and indices
`shape[-2]`, `shape[-1]` are rendered with `List.drop`, `List.take` and
explicit indices, valid under the guarding length tests; `np.prod` of a list
of ints is `List.prod`; `np.sqrt` is exact `Real.sqrt`.  The `ValueError` is
an `Except.error` carrying the formatted message. -/
noncomputable def _compute_fans (shape : List ℕ) (data_format : String) :
    Except String (ℝ × ℝ) :=
  if shape.length = 2 then
    Except.ok ((shape.getD 0 0 : ℝ), (shape.getD 1 0 : ℝ))
  else if shape.length = 3 ∨ shape.length = 4 ∨ shape.length = 5 then
    if data_format = "channels_first" then
      let receptive_field_size := (shape.drop 2).prod
      Except.ok (((shape.getD 1 0 * receptive_field_size : ℕ) : ℝ),
        ((shape.getD 0 0 * receptive_field_size : ℕ) : ℝ))
    else if data_format = "channels_last" then
      let receptive_field_size := (shape.take (shape.length - 2)).prod
      Except.ok (((shape.getD (shape.length - 2) 0 * receptive_field_size : ℕ) : ℝ),
        ((shape.getD (shape.length - 1) 0 * receptive_field_size : ℕ) : ℝ))
    else
      Except.error ("Invalid data_format: " ++ data_format)
  else
    Except.ok (Real.sqrt (shape.prod : ℝ), Real.sqrt (shape.prod : ℝ))

/-- Elementwise sum of two same-shaped tensors (numpy broadcasting is not
exercised: the added noise has exactly the input's shape). -/
def tensorAdd (a b : List (List ℝ)) : List (List ℝ) :=
  List.zipWith (List.zipWith (· + ·)) a b

/-- Elementwise difference of two same-shaped tensors. -/
def tensorSub (a b : List (List ℝ)) : List (List ℝ) :=
  List.zipWith (List.zipWith (· - ·)) a b

/-- `K.sum(K.square(v))` over all the non-batch axes of one sample: the sum of
squares of the flattened row. -/
def sumSq (v : List ℝ) : ℝ :=
  (v.map (fun t => t * t)).sum

/-- `K.max` of a batch vector: the maximum entry (the source never applies it
to an empty batch; the `[]` case is an arbitrary total-function default). -/
def listMax : List ℝ → ℝ
  | [] => 0
  | a :: t => t.foldl max a

/-- `evaluate_lip_const(model, x, eps, seed)`: the naive empirical Lipschitz
constant.  `predict` is the model's forward pass on a batch; `random_uniform`
is the oracle for `K.random_uniform(shape=x.shape, minval=eps*0.25,
maxval=eps, seed=seed)`, receiving the per-row lengths of `x` as the shape.
The diagnostic `print` is a side effect with no bearing on the returned
value. -/
noncomputable def evaluate_lip_const
    (random_uniform : List ℕ → ℝ → ℝ → Option ℤ → List (List ℝ))
    (predict : List (List ℝ) → List (List ℝ))
    (x : List (List ℝ)) (eps : ℝ) (seed : Option ℤ) : ℝ :=
  let y_pred := predict x
  let x_var := tensorAdd x (random_uniform (x.map List.length) (eps * 0.25) eps seed)
  let y_pred_var := predict x_var
  let dx := tensorSub x x_var
  let dfx := tensorSub y_pred y_pred_var
  let ndx := dx.map sumSq
  let ndfx := dfx.map sumSq
  Real.sqrt (listMax (List.zipWith (· / ·) ndfx ndx))

/-- `evaluate_lip_const_gen(model, generator, eps, seed)`: pull one batch from
the generator, unpack it as `x, y, _ = generator.send(None)`, and delegate to
`evaluate_lip_const`.  The generator is the stream of tuples it would yield,
each tuple a list of tensors; a tuple of arity other than three makes the
unpacking fail with the runtime's error, before the model is ever used. -/
noncomputable def evaluate_lip_const_gen
    (random_uniform : List ℕ → ℝ → ℝ → Option ℤ → List (List ℝ))
    (predict : List (List ℝ) → List (List ℝ))
    (generator : List (List (List (List ℝ)))) (eps : ℝ) (seed : Option ℤ) :
    Except String ℝ :=
  match generator with
  | [] => Except.error "StopIteration"
  | batch :: _ =>
    match batch with
    | [x, _y, _w] => Except.ok (evaluate_lip_const random_uniform predict x eps seed)
    | _ =>
      if batch.length < 3 then
        Except.error ("not enough values to unpack (expected 3, got " ++
          toString batch.length ++ ")")
      else
        Except.error "too many values to unpack (expected 3)"

/-! ### Association-list dictionary lemmas -/

theorem dlookup_dinsert_self (d : PyDict) (k : String) (v : PyFun) :
    dlookup (dinsert d k v) k = some v := by
  induction d with
  | nil => simp [dinsert, dlookup]
  | cons p t ih =>
    obtain ⟨k', v'⟩ := p
    by_cases h : k' = k
    · subst h; simp [dinsert, dlookup]
    · simp [dinsert, dlookup, h, ih]

theorem dlookup_dinsert_ne (d : PyDict) (k k' : String) (v : PyFun)
    (h : k' ≠ k) : dlookup (dinsert d k v) k' = dlookup d k' := by
  induction d with
  | nil => simp [dinsert, dlookup, Ne.symm h]
  | cons p t ih =>
    obtain ⟨a, b⟩ := p
    by_cases ha : a = k
    · subst ha; simp [dinsert, dlookup, Ne.symm h]
    · simp [dinsert, dlookup, ha, ih]

theorem dlookup_eq_none_of_not_mem (d : PyDict) (k : String)
    (h : k ∉ d.map Prod.fst) : dlookup d k = none := by
  induction d with
  | nil => rfl
  | cons p t ih =>
    obtain ⟨a, b⟩ := p
    simp only [List.map_cons, List.mem_cons, not_or] at h
    have ha : ¬a = k := fun hh => h.1 hh.symm
    simp [dlookup, ha, ih h.2]

theorem dlookup_dupdate (d o : PyDict) (hk : (o.map Prod.fst).Nodup)
    (k : String) :
    dlookup (dupdate d o) k =
      match dlookup o k with
      | some v => some v
      | none => dlookup d k := by
  induction o generalizing d with
  | nil => rfl
  | cons p t ih =>
    obtain ⟨k0, v0⟩ := p
    simp only [List.map_cons, List.nodup_cons] at hk
    have step : dupdate d ((k0, v0) :: t) = dupdate (dinsert d k0 v0) t := rfl
    rw [step, ih (dinsert d k0 v0) hk.2]
    by_cases h : k0 = k
    · subst h
      rw [dlookup_eq_none_of_not_mem t k0 hk.1]
      simp [dlookup, dlookup_dinsert_self]
    · cases hvt : dlookup t k with
      | some v => simp [dlookup, h, hvt]
      | none => simp [dlookup, h, hvt, dlookup_dinsert_ne d k0 k v0 (Ne.symm h)]

/-! ### Claims about the registry and the loaders -/

/-- C7: `deel_export` returns the callable unchanged and stores it in the
registry under its `__name__`, touching no other entry and never failing;
registering another callable under the same name replaces the earlier entry,
so a subsequent lookup of that name yields the later one. -/
theorem deel_export_registers (st : PyDict) (f : PyFun) :
    (deel_export st f).1 = f ∧
    dlookup (deel_export st f).2 f.name = some f ∧
    (∀ k, k ≠ f.name → dlookup (deel_export st f).2 k = dlookup st k) ∧
    (∀ g : PyFun, g.name = f.name →
      dlookup (deel_export (deel_export st f).2 g).2 f.name = some g) := by
  refine ⟨rfl, dlookup_dinsert_self st f.name f, ?_, ?_⟩
  · intro k hk
    exact dlookup_dinsert_ne st f.name k f hk
  · intro g hg
    show dlookup (dinsert (dinsert st f.name f) g.name g) f.name = some g
    rw [hg]
    exact dlookup_dinsert_self _ _ _

/-- Witness for `deel_export_registers`: registering a second callable named
`act` over a first one makes lookup of `act` return the second. -/
theorem deel_export_registers_witness :
    dlookup (deel_export (deel_export [] ⟨"act", 0⟩).2 ⟨"act", 1⟩).2 "act" =
      some ⟨"act", 1⟩ :=
  (deel_export_registers [] ⟨"act", 0⟩).2.2.2 ⟨"act", 1⟩ rfl

/-- C4: the registry starts empty; only the registration operation changes it,
and only additively (every key present before an operation is still present
after it); every loader call returns the registry exactly as it found it, for
any framework deserializer and any caller overrides. -/
theorem registry_frame :
    CUSTOM_OBJECTS = ([] : PyDict) ∧
    (∀ st op, (∀ f, op ≠ ModuleOp.register f) → registryStep st op = st) ∧
    (∀ (M : Type) (kl : String → PyDict → Bool → M) st fp c cp,
      (load_model kl st fp c cp).2 = st) ∧
    (∀ (M : Type) (kj : String → PyDict → M) st s c,
      (model_from_json kj st s c).2 = st) ∧
    (∀ (M : Type) (ky : String → PyDict → M) st s c,
      (model_from_yaml ky st s c).2 = st) ∧
    (∀ st op k v, dlookup st k = some v →
      ∃ v', dlookup (registryStep st op) k = some v') := by
  refine ⟨rfl, ?_, fun _ _ _ _ _ _ => rfl, fun _ _ _ _ _ => rfl,
    fun _ _ _ _ _ => rfl, ?_⟩
  · intro st op h
    cases op with
    | register f => exact absurd rfl (h f)
    | loadModel fp c cp => rfl
    | fromJson s c => rfl
    | fromYaml s c => rfl
  · intro st op k v hv
    cases op with
    | register f =>
      by_cases hk : k = f.name
      · subst hk
        exact ⟨f, dlookup_dinsert_self st f.name f⟩
      · refine ⟨v, ?_⟩
        show dlookup (dinsert st f.name f) k = some v
        rw [dlookup_dinsert_ne st f.name k f hk]
        exact hv
    | loadModel fp c cp => exact ⟨v, hv⟩
    | fromJson s c => exact ⟨v, hv⟩
    | fromYaml s c => exact ⟨v, hv⟩

/-- Witness for `registry_frame`: a load operation leaves a one-entry registry
untouched. -/
theorem registry_frame_witness :
    registryStep [("act", ⟨"act", 0⟩)] (ModuleOp.loadModel "m.h5" none true) =
      [("act", ⟨"act", 0⟩)] :=
  registry_frame.2.1 [("act", ⟨"act", 0⟩)]
    (ModuleOp.loadModel "m.h5" none true) (fun _ h => ModuleOp.noConfusion h)

/-- C3: every loader hands the framework deserializer the merged mapping
`deel_custom_objects`, a copy of the registry overlaid with the caller
mapping: a name bound by the caller gets the caller's value, a registered name
absent from the caller mapping keeps its registry value; in particular, after
`deel_export f` a loader whose overrides do not bind `f.__name__` passes `f`
under that name, and with no overrides the mapping is exactly the registry
copy. -/
theorem loaders_merge_custom_objects (M : Type)
    (kl : String → PyDict → Bool → M) (kj ky : String → PyDict → M)
    (st C : PyDict) (hC : (C.map Prod.fst).Nodup)
    (fp js ys : String) (cp : Bool) :
    (load_model kl st fp (some C) cp).1 =
      kl fp (deel_custom_objects st (some C)) cp ∧
    (model_from_json kj st js (some C)).1 =
      kj js (deel_custom_objects st (some C)) ∧
    (model_from_yaml ky st ys (some C)).1 =
      ky ys (deel_custom_objects st (some C)) ∧
    (∀ k, dlookup (deel_custom_objects st (some C)) k =
      match dlookup C k with
      | some v => some v
      | none => dlookup st k) ∧
    (∀ f : PyFun, dlookup C f.name = none →
      dlookup (deel_custom_objects (deel_export st f).2 (some C)) f.name =
        some f) ∧
    deel_custom_objects st none = dcopy st := by
  refine ⟨rfl, rfl, rfl, fun k => dlookup_dupdate (dcopy st) C hC k, ?_, rfl⟩
  intro f hf
  show dlookup (dupdate (dcopy (deel_export st f).2) C) f.name = some f
  rw [dlookup_dupdate (dcopy (deel_export st f).2) C hC f.name, hf]
  exact dlookup_dinsert_self st f.name f

/-- Witness for `loaders_merge_custom_objects`: a caller override for `act`
wins over the registered entry in the merged mapping. -/
theorem loaders_merge_custom_objects_witness :
    dlookup (deel_custom_objects [("act", ⟨"act", 0⟩)]
      (some [("act", ⟨"act", 1⟩)])) "act" = some ⟨"act", 1⟩ := by
  have h := (loaders_merge_custom_objects Unit (fun _ _ _ => ())
    (fun _ _ => ()) (fun _ _ => ()) [("act", ⟨"act", 0⟩)]
    [("act", ⟨"act", 1⟩)] (by simp) "" "" "" true).2.2.2.1 "act"
  rw [h]
  rfl

/-! ### Claims about `_compute_fans` -/

/-- C2: on either recognized layout, `_compute_fans` returns
`(shape[0], shape[1])` for a 2-element shape; for a shape of length 3, 4 or 5
it multiplies the spatial dimensions into a receptive-field size and returns
`(shape[1]*rf, shape[0]*rf)` for `channels_first` and
`(shape[-2]*rf, shape[-1]*rf)` for `channels_last`; for any other length it
returns the square root of the product of all dimensions in both
components. -/
theorem compute_fans_spec (shape : List ℕ) (data_format : String)
    (hdf : data_format = "channels_first" ∨ data_format = "channels_last") :
    _compute_fans shape data_format =
      if shape.length = 2 then
        Except.ok ((shape.getD 0 0 : ℝ), (shape.getD 1 0 : ℝ))
      else if shape.length = 3 ∨ shape.length = 4 ∨ shape.length = 5 then
        if data_format = "channels_first" then
          Except.ok (((shape.getD 1 0 * (shape.drop 2).prod : ℕ) : ℝ),
            ((shape.getD 0 0 * (shape.drop 2).prod : ℕ) : ℝ))
        else
          Except.ok
            (((shape.getD (shape.length - 2) 0 *
                (shape.take (shape.length - 2)).prod : ℕ) : ℝ),
              ((shape.getD (shape.length - 1) 0 *
                (shape.take (shape.length - 2)).prod : ℕ) : ℝ))
      else
        Except.ok (Real.sqrt (shape.prod : ℝ), Real.sqrt (shape.prod : ℝ)) := by
  have hne : ¬"channels_last" = "channels_first" := by decide
  rcases hdf with h | h <;> subst h
  · simp [_compute_fans]
  · simp [_compute_fans, hne]

/-- Witness for `compute_fans_spec`: a rank-4 kernel shape in `channels_last`
layout has receptive field `3·3 = 9`, fan-in `4·9 = 36`, fan-out `8·9 = 72`. -/
theorem compute_fans_spec_witness :
    _compute_fans [3, 3, 4, 8] "channels_last" =
      Except.ok ((36 : ℝ), (72 : ℝ)) := by
  rw [compute_fans_spec [3, 3, 4, 8] "channels_last" (Or.inr rfl)]
  have hne : ¬"channels_last" = "channels_first" := by decide
  norm_num [List.getD, hne]

/-- C6: on a shape of length 3, 4 or 5 and any layout string other than the
two recognized ones, `_compute_fans` produces no result and fails with the
invalid-argument error carrying the offending layout string. -/
theorem compute_fans_invalid_format (shape : List ℕ) (data_format : String)
    (hlen : shape.length = 3 ∨ shape.length = 4 ∨ shape.length = 5)
    (h1 : data_format ≠ "channels_first") (h2 : data_format ≠ "channels_last") :
    _compute_fans shape data_format =
      Except.error ("Invalid data_format: " ++ data_format) := by
  have hne2 : shape.length ≠ 2 := by rcases hlen with h | h | h <;> omega
  simp [_compute_fans, hne2, hlen, h1, h2]

/-- Witness for `compute_fans_invalid_format` on a rank-4 shape and the layout
string `invalid-layout`. -/
theorem compute_fans_invalid_format_witness :
    _compute_fans [2, 2, 4, 8] "invalid-layout" =
      Except.error ("Invalid data_format: " ++ "invalid-layout") :=
  compute_fans_invalid_format [2, 2, 4, 8] "invalid-layout" (by norm_num)
    (by decide) (by decide)

/-- C10: a 2-element shape yields `(shape[0], shape[1])` under every layout
string, recognized or not; an error result is only possible for shapes of
length 3, 4 or 5, and outside those lengths the layout string does not affect
the result at all. -/
theorem compute_fans_rank_two_total (shape : List ℕ) (data_format : String) :
    (shape.length = 2 →
      _compute_fans shape data_format =
        Except.ok ((shape.getD 0 0 : ℝ), (shape.getD 1 0 : ℝ))) ∧
    (∀ e, _compute_fans shape data_format = Except.error e →
      shape.length = 3 ∨ shape.length = 4 ∨ shape.length = 5) ∧
    (¬(shape.length = 3 ∨ shape.length = 4 ∨ shape.length = 5) →
      ∀ df', _compute_fans shape data_format = _compute_fans shape df') := by
  refine ⟨?_, ?_, ?_⟩
  · intro h2
    simp [_compute_fans, h2]
  · intro e he
    by_cases h2 : shape.length = 2
    · simp [_compute_fans, h2] at he
    · by_cases h345 : shape.length = 3 ∨ shape.length = 4 ∨ shape.length = 5
      · exact h345
      · simp [_compute_fans, h2, h345] at he
  · intro hlen df'
    by_cases h2 : shape.length = 2
    · simp [_compute_fans, h2]
    · simp [_compute_fans, h2, hlen]

/-- Witness for `compute_fans_rank_two_total`: the dense shape `[4, 8]` with an
unrecognized layout string still yields `(4, 8)`. -/
theorem compute_fans_rank_two_total_witness :
    _compute_fans [4, 8] "invalid-layout" = Except.ok ((4 : ℝ), (8 : ℝ)) := by
  rw [(compute_fans_rank_two_total [4, 8] "invalid-layout").1 rfl]
  norm_num [List.getD]

/-! ### Tensor arithmetic lemmas for the estimator -/

theorem sumSq_cons (a : ℝ) (t : List ℝ) : sumSq (a :: t) = a * a + sumSq t := by
  simp [sumSq]

theorem sumSq_map_neg (v : List ℝ) : sumSq (v.map (fun t => -t)) = sumSq v := by
  induction v with
  | nil => rfl
  | cons a t ih => simp [sumSq_cons, ih, neg_mul_neg]

theorem sumSq_nonneg (v : List ℝ) : 0 ≤ sumSq v := by
  induction v with
  | nil => simp [sumSq]
  | cons a t ih =>
    rw [sumSq_cons]
    nlinarith [mul_self_nonneg a]

theorem sumSq_pos (v : List ℝ) (hne : v ≠ []) (h : ∀ t ∈ v, 0 < t) :
    0 < sumSq v := by
  cases v with
  | nil => exact absurd rfl hne
  | cons a t =>
    rw [sumSq_cons]
    have ha : 0 < a := h a (List.mem_cons_self a t)
    have h2 : 0 ≤ sumSq t := sumSq_nonneg t
    nlinarith

theorem row_sub_add (a b : List ℝ) (h : a.length = b.length) :
    List.zipWith (· - ·) a (List.zipWith (· + ·) a b) = b.map (fun v => -v) := by
  induction a generalizing b with
  | nil =>
    cases b with
    | nil => rfl
    | cons y tb => simp at h
  | cons x ta ih =>
    cases b with
    | nil => simp at h
    | cons y tb =>
      have h' : ta.length = tb.length := by simpa using h
      simp only [List.zipWith_cons_cons, List.map_cons, ih tb h']
      congr 1
      ring

theorem row_add_sub (a b : List ℝ) (h : a.length = b.length) :
    List.zipWith (· - ·) (List.zipWith (· + ·) a b) a = b := by
  induction a generalizing b with
  | nil =>
    cases b with
    | nil => rfl
    | cons y tb => simp at h
  | cons x ta ih =>
    cases b with
    | nil => simp at h
    | cons y tb =>
      have h' : ta.length = tb.length := by simpa using h
      simp only [List.zipWith_cons_cons, ih tb h']
      congr 1
      ring

theorem tensorSub_tensorAdd_self (x u : List (List ℝ))
    (h : u.map List.length = x.map List.length) :
    tensorSub (tensorAdd x u) x = u := by
  induction x generalizing u with
  | nil =>
    cases u with
    | nil => rfl
    | cons s ut => simp at h
  | cons r xt ih =>
    cases u with
    | nil => simp at h
    | cons s ut =>
      simp only [List.map_cons, List.cons.injEq] at h
      simp only [tensorAdd, tensorSub, List.zipWith_cons_cons]
      exact List.cons_eq_cons.mpr ⟨row_add_sub r s h.1.symm, ih ut h.2⟩

theorem ndx_rows (x u : List (List ℝ))
    (h : u.map List.length = x.map List.length) :
    (tensorSub x (tensorAdd x u)).map sumSq = u.map sumSq := by
  induction x generalizing u with
  | nil =>
    cases u with
    | nil => rfl
    | cons s ut => simp at h
  | cons r xt ih =>
    cases u with
    | nil => simp at h
    | cons s ut =>
      simp only [List.map_cons, List.cons.injEq] at h
      simp only [tensorAdd, tensorSub, List.zipWith_cons_cons, List.map_cons]
      refine List.cons_eq_cons.mpr ⟨?_, ih ut h.2⟩
      rw [row_sub_add r s h.1.symm, sumSq_map_neg]

theorem rows_nonempty (x u : List (List ℝ))
    (h : u.map List.length = x.map List.length)
    (hx : ∀ r ∈ x, r ≠ []) : ∀ r ∈ u, r ≠ [] := by
  induction x generalizing u with
  | nil =>
    cases u with
    | nil => intro r hr; simp at hr
    | cons s ut => simp at h
  | cons r xt ih =>
    cases u with
    | nil => intro q hq; simp at hq
    | cons s ut =>
      simp only [List.map_cons, List.cons.injEq] at h
      intro q hq
      rcases List.mem_cons.mp hq with hq | hq
      · subst hq
        intro hnil
        have hr : r ≠ [] := hx r (List.mem_cons_self r xt)
        have hl : q.length = r.length := h.1
        rw [hnil] at hl
        exact hr (List.length_eq_zero.mp hl.symm)
      · exact ih ut h.2 (fun p hp => hx p (List.mem_cons_of_mem r hp)) q hq

/-! ### Claims about the Lipschitz estimator -/

/-- C1: `evaluate_lip_const` returns the square root of the batch maximum of
`ndfx / ndx`, where `x_var` is `x` plus the sampled per-element offsets (the
sampler is assumed to honour its range `[0.25·eps, eps)`), `ndx` is the
per-sample sum of squared `x - x_var` over all non-batch axes, and `ndfx` is
the per-sample sum of squared `predict x - predict x_var` over all non-batch
axes. -/
theorem evaluate_lip_const_spec
    (random_uniform : List ℕ → ℝ → ℝ → Option ℤ → List (List ℝ))
    (predict : List (List ℝ) → List (List ℝ))
    (x : List (List ℝ)) (eps : ℝ) (seed : Option ℤ)
    (hrange : ∀ r ∈ random_uniform (x.map List.length) (eps * 0.25) eps seed,
      ∀ v ∈ r, 0.25 * eps ≤ v ∧ v < eps) :
    evaluate_lip_const random_uniform predict x eps seed =
      Real.sqrt (listMax (List.zipWith (· / ·)
        ((tensorSub (predict x)
          (predict (tensorAdd x
            (random_uniform (x.map List.length) (eps * 0.25) eps seed)))).map
          sumSq)
        ((tensorSub x
          (tensorAdd x
            (random_uniform (x.map List.length) (eps * 0.25) eps seed))).map
          sumSq))) :=
  rfl

/-- Witness for `evaluate_lip_const_spec` on a one-sample, one-feature batch
with the identity model and offset `1/2` for `eps = 1`. -/
theorem evaluate_lip_const_spec_witness :
    evaluate_lip_const (fun _ _ _ _ => [[(1 : ℝ) / 2]]) (fun b => b)
        [[(0 : ℝ)]] 1 none =
      Real.sqrt (listMax (List.zipWith (· / ·)
        ((tensorSub [[(0 : ℝ)]] (tensorAdd [[(0 : ℝ)]] [[(1 : ℝ) / 2]])).map
          sumSq)
        ((tensorSub [[(0 : ℝ)]] (tensorAdd [[(0 : ℝ)]] [[(1 : ℝ) / 2]])).map
          sumSq))) :=
  evaluate_lip_const_spec (fun _ _ _ _ => [[(1 : ℝ) / 2]]) (fun b => b)
    [[(0 : ℝ)]] 1 none
    (by
      intro r hr v hv
      simp only [List.mem_singleton] at hr
      subst hr
      simp only [List.mem_singleton] at hv
      subst hv
      norm_num)

/-- C5: the generator form pulls only the first yielded batch; when that batch
is a triple `(x, y, sample_weight)`, it returns exactly the direct estimate on
`x` — neither `y`, nor `sample_weight`, nor any later batch influences the
result. -/
theorem evaluate_lip_const_gen_delegates
    (random_uniform : List ℕ → ℝ → ℝ → Option ℤ → List (List ℝ))
    (predict : List (List ℝ) → List (List ℝ))
    (x y w : List (List ℝ)) (rest : List (List (List (List ℝ))))
    (eps : ℝ) (seed : Option ℤ) :
    evaluate_lip_const_gen random_uniform predict ([x, y, w] :: rest) eps seed =
      Except.ok (evaluate_lip_const random_uniform predict x eps seed) :=
  rfl

/-- C8: a first yielded batch with fewer than two components makes the
generator form fail with the runtime's unpacking error, for every model — the
model is never evaluated — and the error surfaces unchanged. -/
theorem gen_unpack_error
    (random_uniform : List ℕ → ℝ → ℝ → Option ℤ → List (List ℝ))
    (predict : List (List ℝ) → List (List ℝ))
    (batch : List (List (List ℝ))) (rest : List (List (List (List ℝ))))
    (eps : ℝ) (seed : Option ℤ) (h : batch.length < 2) :
    evaluate_lip_const_gen random_uniform predict (batch :: rest) eps seed =
      Except.error ("not enough values to unpack (expected 3, got " ++
        toString batch.length ++ ")") := by
  rcases batch with _ | ⟨a, _ | ⟨b, t⟩⟩
  · rfl
  · rfl
  · simp only [List.length_cons] at h
    omega

/-- Witness for `gen_unpack_error`: a generator whose first batch holds a
single tensor fails with the arity-1 unpacking error. -/
theorem gen_unpack_error_witness :
    evaluate_lip_const_gen (fun _ _ _ _ => []) (fun b => b)
        [[[[(0 : ℝ)]]]] 1 none =
      Except.error ("not enough values to unpack (expected 3, got " ++
        toString (1 : ℕ) ++ ")") :=
  gen_unpack_error (fun _ _ _ _ => []) (fun b => b) [[[(0 : ℝ)]]] [] 1 none
    (by norm_num)

/-- C9: in exact arithmetic, with `eps > 0`, a sampler honouring its range and
nonempty per-sample inputs, every element of `x_var - x` lies in
`[0.25·eps, eps)` and each per-sample denominator `ndx` — the sum of squared
`x - x_var` that `evaluate_lip_const` divides by — is strictly positive, so
the unguarded division never sees an exactly zero denominator. -/
theorem ndx_strictly_positive
    (random_uniform : List ℕ → ℝ → ℝ → Option ℤ → List (List ℝ))
    (x : List (List ℝ)) (eps : ℝ) (seed : Option ℤ) (u : List (List ℝ))
    (hu : u = random_uniform (x.map List.length) (eps * 0.25) eps seed)
    (heps : 0 < eps)
    (hshape : u.map List.length = x.map List.length)
    (hrange : ∀ r ∈ u, ∀ v ∈ r, 0.25 * eps ≤ v ∧ v < eps)
    (hne : ∀ r ∈ x, r ≠ []) :
    (∀ r ∈ tensorSub (tensorAdd x u) x, ∀ v ∈ r, 0.25 * eps ≤ v ∧ v < eps) ∧
    (∀ n ∈ (tensorSub x (tensorAdd x u)).map sumSq, 0 < n) := by
  constructor
  · rw [tensorSub_tensorAdd_self x u hshape]
    exact hrange
  · rw [ndx_rows x u hshape]
    intro n hn
    rcases List.mem_map.mp hn with ⟨r, hr, rfl⟩
    refine sumSq_pos r (rows_nonempty x u hshape hne r hr) ?_
    intro t ht
    have hv := (hrange r hr t ht).1
    linarith

/-- Witness for `ndx_strictly_positive`: the one-sample denominator for input
`[[0]]` and offset `1/2` is strictly positive. -/
theorem ndx_strictly_positive_witness :
    (0 : ℝ) < sumSq (List.zipWith (· - ·) [(0 : ℝ)]
      (List.zipWith (· + ·) [(0 : ℝ)] [(1 : ℝ) / 2])) :=
  (ndx_strictly_positive (fun _ _ _ _ => [[(1 : ℝ) / 2]]) [[(0 : ℝ)]] 1 none
    [[(1 : ℝ) / 2]] rfl (by norm_num) rfl
    (by
      intro r hr v hv
      simp only [List.mem_singleton] at hr
      subst hr
      simp only [List.mem_singleton] at hv
      subst hv
      norm_num)
    (by
      intro r hr
      simp only [List.mem_singleton] at hr
      subst hr
      simp)).2
    (sumSq (List.zipWith (· - ·) [(0 : ℝ)]
      (List.zipWith (· + ·) [(0 : ℝ)] [(1 : ℝ) / 2])))
    (List.mem_map.mpr ⟨List.zipWith (· - ·) [(0 : ℝ)]
      (List.zipWith (· + ·) [(0 : ℝ)] [(1 : ℝ) / 2]),
      List.mem_singleton.mpr rfl, rfl⟩)
